import Mathlib

/-!
Verification of the `twobombs/nbodykit` sources against their specification.

Part 1: the `Describe` algorithm
(`src/nbodykit/plugins/algorithms/ExampleAlgorithm.py`).

`Describe.run` streams blocks of a column from its data source.  Each block
`pos` is a 2-D array (rows x coordinates); the loop appends
`numpy.min(pos, axis=0)` and `numpy.max(pos, axis=0)` (elementwise over the
row axis), then reduces the per-block vectors with a second
`numpy.min/.max(..., axis=0)`, and finally all-gathers each rank's local
vector and reduces elementwise once more.

Embedding choices:
* a row is a `List ℤ` of coordinates; elementwise min of two rows is
  `List.zipWith min` (rows of a numpy column array all have equal width, and
  `zipWith` restricted to equal-width lists is exactly the elementwise
  operation);
* `numpy.min(xs, axis=0)` over a list of vectors raises on an empty list and
  otherwise folds the elementwise min; we model it as an `Option`-valued
  fold, `none` being the raised `ValueError`;
* the whole of `run` on one rank is `Option`-valued (`none` = the Python
  call raised), and the collective stage consumes every rank's local value,
  mirroring `comm.allgather` delivering the same rank-ordered list of local
  results to every rank.
-/

/-- A row of a column block: the coordinate vector of one particle. -/
abbrev Row : Type := List ℤ

/-- Elementwise minimum of two coordinate vectors (`numpy.minimum`). -/
def elemMin (a b : Row) : Row := List.zipWith min a b

/-- Elementwise maximum of two coordinate vectors (`numpy.maximum`). -/
def elemMax (a b : Row) : Row := List.zipWith max a b

/-- One step of `numpy.min(_, axis=0)` as a fold over an `Option`
accumulator: the first row seeds the accumulator, later rows are combined
elementwise. -/
def comboMin (acc : Option Row) (r : Row) : Option Row :=
  match acc with
  | none => some r
  | some a => some (elemMin a r)

/-- One step of `numpy.max(_, axis=0)` as a fold over an `Option`
accumulator. -/
def comboMax (acc : Option Row) (r : Row) : Option Row :=
  match acc with
  | none => some r
  | some a => some (elemMax a r)

/-- `numpy.min(rows, axis=0)`: elementwise minimum over a list of vectors,
`none` when the list is empty (numpy raises `ValueError` on a zero-size
reduction). -/
def vecsMin (rows : List Row) : Option Row := rows.foldl comboMin none

/-- `numpy.max(rows, axis=0)`: elementwise maximum over a list of vectors,
`none` when the list is empty. -/
def vecsMax (rows : List Row) : Option Row := rows.foldl comboMax none

/-- The per-rank body of `Describe.run`: fold each block of the local stream
to its elementwise min/max, then reduce the per-block vectors.  `none`
models the numpy `ValueError` raised on any empty block or an empty local
stream. -/
def Describe.localRun (blocks : List (List Row)) : Option (Row × Row) := do
  let lefts ← blocks.mapM vecsMin
  let rights ← blocks.mapM vecsMax
  let l ← vecsMin lefts
  let r ← vecsMax rights
  pure (l, r)

/-- `Describe.run` as observed on rank `rank` of the process group:
every rank computes its local partial, `comm.allgather` hands the same
rank-ordered list of local results to each rank, which then reduces it
elementwise once more.  `workers` lists each rank's local stream of blocks.
The `rank` argument records which rank's copy of the result we read;
`allgather` delivers identical lists, so the computation after the gather
is the same expression on every rank. -/
def Describe.runAt (workers : List (List (List Row))) (rank : ℕ) :
    Option (Row × Row) := do
  let locals ← workers.mapM Describe.localRun
  let l ← vecsMin (locals.map Prod.fst)
  let r ← vecsMax (locals.map Prod.snd)
  pure (l, r)

/-- All rows of the logical dataset: the union over ranks of the union over
blocks. -/
def allRows (workers : List (List (List Row))) : List Row :=
  workers.flatten.flatten

/-! ### Algebra of the elementwise reductions -/

theorem elemMin_comm (a b : Row) : elemMin a b = elemMin b a := by
  unfold elemMin
  induction a generalizing b with
  | nil => cases b <;> rfl
  | cons x xs ih =>
    cases b with
    | nil => rfl
    | cons y ys => simp [List.zipWith, min_comm, ih]

theorem elemMax_comm (a b : Row) : elemMax a b = elemMax b a := by
  unfold elemMax
  induction a generalizing b with
  | nil => cases b <;> rfl
  | cons x xs ih =>
    cases b with
    | nil => rfl
    | cons y ys => simp [List.zipWith, max_comm, ih]

theorem elemMin_assoc (a b c : Row) :
    elemMin (elemMin a b) c = elemMin a (elemMin b c) := by
  unfold elemMin
  induction a generalizing b c with
  | nil => cases b <;> cases c <;> rfl
  | cons x xs ih =>
    cases b with
    | nil => rfl
    | cons y ys =>
      cases c with
      | nil => rfl
      | cons z zs => simp [List.zipWith, min_assoc, ih]

theorem elemMax_assoc (a b c : Row) :
    elemMax (elemMax a b) c = elemMax a (elemMax b c) := by
  unfold elemMax
  induction a generalizing b c with
  | nil => cases b <;> cases c <;> rfl
  | cons x xs ih =>
    cases b with
    | nil => rfl
    | cons y ys =>
      cases c with
      | nil => rfl
      | cons z zs => simp [List.zipWith, max_assoc, ih]

theorem comboMin_rcomm (acc : Option Row) (a b : Row) :
    comboMin (comboMin acc a) b = comboMin (comboMin acc b) a := by
  cases acc with
  | none => simp [comboMin, elemMin_comm a b]
  | some c =>
    simp only [comboMin, Option.some.injEq]
    rw [elemMin_assoc, elemMin_assoc, elemMin_comm a b]

theorem comboMax_rcomm (acc : Option Row) (a b : Row) :
    comboMax (comboMax acc a) b = comboMax (comboMax acc b) a := by
  cases acc with
  | none => simp [comboMax, elemMax_comm a b]
  | some c =>
    simp only [comboMax, Option.some.injEq]
    rw [elemMax_assoc, elemMax_assoc, elemMax_comm a b]

/-- `numpy.min(_, axis=0)` over a list of vectors is invariant under
permutation of the list. -/
theorem vecsMin_perm {l₁ l₂ : List Row} (h : l₁.Perm l₂) :
    vecsMin l₁ = vecsMin l₂ :=
  h.foldl_eq' (fun x _ y _ z => comboMin_rcomm z x y) none

/-- `numpy.max(_, axis=0)` over a list of vectors is invariant under
permutation of the list. -/
theorem vecsMax_perm {l₁ l₂ : List Row} (h : l₁.Perm l₂) :
    vecsMax l₁ = vecsMax l₂ :=
  h.foldl_eq' (fun x _ y _ z => comboMax_rcomm z x y) none

/-- Merging two optional partial reductions: the identity-extended
elementwise minimum. -/
def oMin (a b : Option Row) : Option Row :=
  match a, b with
  | none, b => b
  | some a, none => some a
  | some a, some b => some (elemMin a b)

/-- Merging two optional partial reductions: the identity-extended
elementwise maximum. -/
def oMax (a b : Option Row) : Option Row :=
  match a, b with
  | none, b => b
  | some a, none => some a
  | some a, some b => some (elemMax a b)

theorem foldl_comboMin_some (a : Row) (l : List Row) :
    l.foldl comboMin (some a) = some (l.foldl elemMin a) := by
  induction l generalizing a with
  | nil => rfl
  | cons x xs ih => simp [List.foldl, comboMin, ih]

theorem foldl_comboMax_some (a : Row) (l : List Row) :
    l.foldl comboMax (some a) = some (l.foldl elemMax a) := by
  induction l generalizing a with
  | nil => rfl
  | cons x xs ih => simp [List.foldl, comboMax, ih]

theorem foldl_elemMin_pull (a y : Row) (l : List Row) :
    l.foldl elemMin (elemMin a y) = elemMin a (l.foldl elemMin y) := by
  induction l generalizing y with
  | nil => rfl
  | cons z zs ih => simp only [List.foldl, elemMin_assoc, ih]

theorem foldl_elemMax_pull (a y : Row) (l : List Row) :
    l.foldl elemMax (elemMax a y) = elemMax a (l.foldl elemMax y) := by
  induction l generalizing y with
  | nil => rfl
  | cons z zs ih => simp only [List.foldl, elemMax_assoc, ih]

theorem vecsMin_cons (x : Row) (xs : List Row) :
    vecsMin (x :: xs) = some (xs.foldl elemMin x) := by
  simp [vecsMin, List.foldl_cons, comboMin, foldl_comboMin_some]

theorem vecsMax_cons (x : Row) (xs : List Row) :
    vecsMax (x :: xs) = some (xs.foldl elemMax x) := by
  simp [vecsMax, List.foldl_cons, comboMax, foldl_comboMax_some]

/-- The block-level reduction distributes over list concatenation through
the identity-extended merge. -/
theorem vecsMin_append (l₁ l₂ : List Row) :
    vecsMin (l₁ ++ l₂) = oMin (vecsMin l₁) (vecsMin l₂) := by
  cases l₁ with
  | nil => rfl
  | cons x xs =>
    cases l₂ with
    | nil => rw [List.append_nil, vecsMin_cons]; rfl
    | cons y ys =>
      rw [List.cons_append, vecsMin_cons, List.foldl_append, List.foldl_cons,
        vecsMin_cons, vecsMin_cons]
      simp only [oMin, Option.some.injEq]
      rw [foldl_elemMin_pull]

theorem vecsMax_append (l₁ l₂ : List Row) :
    vecsMax (l₁ ++ l₂) = oMax (vecsMax l₁) (vecsMax l₂) := by
  cases l₁ with
  | nil => rfl
  | cons x xs =>
    cases l₂ with
    | nil => rw [List.append_nil, vecsMax_cons]; rfl
    | cons y ys =>
      rw [List.cons_append, vecsMax_cons, List.foldl_append, List.foldl_cons,
        vecsMax_cons, vecsMax_cons]
      simp only [oMax, Option.some.injEq]
      rw [foldl_elemMax_pull]

/-- Pair an optional left vector with an optional right vector. -/
def pairUp (a b : Option Row) : Option (Row × Row) :=
  a.bind fun l => b.map fun r => (l, r)

theorem vecsMin_isSome {l : List Row} (h : l ≠ []) : ∃ m, vecsMin l = some m := by
  cases l with
  | nil => exact absurd rfl h
  | cons x xs => exact ⟨xs.foldl elemMin x, vecsMin_cons x xs⟩

theorem vecsMax_isSome {l : List Row} (h : l ≠ []) : ∃ m, vecsMax l = some m := by
  cases l with
  | nil => exact absurd rfl h
  | cons x xs => exact ⟨xs.foldl elemMax x, vecsMax_cons x xs⟩

/-- Reducing the per-block minima of a stream of nonempty blocks is the
same as reducing the flattened stream. -/
theorem mapM_vecsMin_flatten (blocks : List (List Row))
    (h : ∀ b ∈ blocks, b ≠ []) :
    ∃ ms, blocks.mapM vecsMin = some ms ∧
      vecsMin ms = vecsMin blocks.flatten := by
  induction blocks with
  | nil => exact ⟨[], rfl, rfl⟩
  | cons b bs ih =>
    obtain ⟨ms, hms, hm⟩ := ih (fun x hx => h x (List.mem_cons_of_mem _ hx))
    obtain ⟨m, hb⟩ := vecsMin_isSome (h b (List.mem_cons_self b bs))
    refine ⟨m :: ms, ?_, ?_⟩
    · rw [List.mapM_cons, hb, hms]; rfl
    · have h2 : vecsMin (m :: ms) = oMin (vecsMin [m]) (vecsMin ms) :=
        vecsMin_append [m] ms
      rw [h2, List.flatten_cons, vecsMin_append, hm, hb]
      rfl

theorem mapM_vecsMax_flatten (blocks : List (List Row))
    (h : ∀ b ∈ blocks, b ≠ []) :
    ∃ ms, blocks.mapM vecsMax = some ms ∧
      vecsMax ms = vecsMax blocks.flatten := by
  induction blocks with
  | nil => exact ⟨[], rfl, rfl⟩
  | cons b bs ih =>
    obtain ⟨ms, hms, hm⟩ := ih (fun x hx => h x (List.mem_cons_of_mem _ hx))
    obtain ⟨m, hb⟩ := vecsMax_isSome (h b (List.mem_cons_self b bs))
    refine ⟨m :: ms, ?_, ?_⟩
    · rw [List.mapM_cons, hb, hms]; rfl
    · have h2 : vecsMax (m :: ms) = oMax (vecsMax [m]) (vecsMax ms) :=
        vecsMax_append [m] ms
      rw [h2, List.flatten_cons, vecsMax_append, hm, hb]
      rfl

/-- One rank's fold over a stream of nonempty blocks computes the
elementwise min/max of every row the stream delivered. -/
theorem localRun_eq (blocks : List (List Row)) (h : ∀ b ∈ blocks, b ≠ []) :
    Describe.localRun blocks =
      pairUp (vecsMin blocks.flatten) (vecsMax blocks.flatten) := by
  obtain ⟨ms, hms, hm⟩ := mapM_vecsMin_flatten blocks h
  obtain ⟨rs, hrs, hr⟩ := mapM_vecsMax_flatten blocks h
  unfold Describe.localRun
  rw [hms, hrs]
  cases hv : vecsMin blocks.flatten with
  | none => simp [pairUp, hm, hv]
  | some l =>
    cases hw : vecsMax blocks.flatten with
    | none => simp [pairUp, hm, hr, hv, hw]
    | some r => simp [pairUp, hm, hr, hv, hw]

theorem flatten_ne_nil_of_parts {w : List (List Row)} (hw : w ≠ [])
    (hb : ∀ b ∈ w, b ≠ []) : w.flatten ≠ [] := by
  cases w with
  | nil => exact absurd rfl hw
  | cons b bs =>
    cases hx : b with
    | nil => exact absurd hx (hb b (List.mem_cons_self b bs))
    | cons x xs => simp [List.flatten_cons, hx]

/-- The gathered-and-reduced result of `Describe.run`, as read on any rank,
is the flattened reduction of every row of every rank, whenever every rank
has a nonempty stream of nonempty blocks. -/
theorem runAt_eq (workers : List (List (List Row)))
    (h2 : ∀ w ∈ workers, w ≠ [])
    (h3 : ∀ w ∈ workers, ∀ b ∈ w, b ≠ []) (rank : ℕ) :
    Describe.runAt workers rank =
      pairUp (vecsMin (allRows workers)) (vecsMax (allRows workers)) := by
  have key : ∃ ls, workers.mapM Describe.localRun = some ls ∧
      vecsMin (ls.map Prod.fst) = vecsMin (allRows workers) ∧
      vecsMax (ls.map Prod.snd) = vecsMax (allRows workers) := by
    clear rank
    induction workers with
    | nil => exact ⟨[], rfl, rfl, rfl⟩
    | cons w ws ih =>
      obtain ⟨ls, hls, hminls, hmaxls⟩ :=
        ih (fun x hx => h2 x (List.mem_cons_of_mem _ hx))
          (fun x hx => h3 x (List.mem_cons_of_mem _ hx))
      have hwne : w.flatten ≠ [] :=
        flatten_ne_nil_of_parts (h2 w (List.mem_cons_self w ws))
          (h3 w (List.mem_cons_self w ws))
      obtain ⟨mw, hmw⟩ := vecsMin_isSome hwne
      obtain ⟨Mw, hMw⟩ := vecsMax_isSome hwne
      have hloc : Describe.localRun w = some (mw, Mw) := by
        rw [localRun_eq w (h3 w (List.mem_cons_self w ws)), hmw, hMw]
        rfl
      refine ⟨(mw, Mw) :: ls, ?_, ?_, ?_⟩
      · rw [List.mapM_cons, hloc, hls]; rfl
      · have h4 : vecsMin (mw :: ls.map Prod.fst) =
            oMin (vecsMin [mw]) (vecsMin (ls.map Prod.fst)) :=
          vecsMin_append [mw] _
        have h5 : allRows (w :: ws) = w.flatten ++ allRows ws := by
          simp [allRows, List.flatten_cons]
        rw [List.map_cons, h4, hminls, h5, vecsMin_append, hmw]
        rfl
      · have h4 : vecsMax (Mw :: ls.map Prod.snd) =
            oMax (vecsMax [Mw]) (vecsMax (ls.map Prod.snd)) :=
          vecsMax_append [Mw] _
        have h5 : allRows (w :: ws) = w.flatten ++ allRows ws := by
          simp [allRows, List.flatten_cons]
        rw [List.map_cons, h4, hmaxls, h5, vecsMax_append, hMw]
        rfl
  obtain ⟨ls, hls, hminls, hmaxls⟩ := key
  unfold Describe.runAt
  rw [hls]
  cases hv : vecsMin (allRows workers) with
  | none => simp [pairUp, hminls, hv]
  | some l =>
    cases hw : vecsMax (allRows workers) with
    | none => simp [pairUp, hminls, hmaxls, hv, hw]
    | some r => simp [pairUp, hminls, hmaxls, hv, hw]

/-- C1: the final (left, right) of `Describe.run` is the same for every way
the same logical multiset of rows is partitioned into blocks within a
worker and across any number of workers, because the elementwise min/max
reduction is associative and commutative across block and worker
boundaries. -/
theorem describe_partition_invariant
    (P Q : List (List (List Row)))
    (hP2 : ∀ w ∈ P, w ≠ []) (hP3 : ∀ w ∈ P, ∀ b ∈ w, b ≠ [])
    (hQ2 : ∀ w ∈ Q, w ≠ []) (hQ3 : ∀ w ∈ Q, ∀ b ∈ w, b ≠ [])
    (hperm : (allRows P).Perm (allRows Q)) (i j : ℕ) :
    Describe.runAt P i = Describe.runAt Q j := by
  rw [runAt_eq P hP2 hP3 i, runAt_eq Q hQ2 hQ3 j,
    vecsMin_perm hperm, vecsMax_perm hperm]

theorem describe_partition_invariant_witness :
    Describe.runAt [[[[1, 2], [3, 0]]]] 0 =
      Describe.runAt [[[[3, 0]]], [[[1, 2]]]] 1 :=
  describe_partition_invariant [[[[1, 2], [3, 0]]]] [[[[3, 0]]], [[[1, 2]]]]
    (by decide) (by decide) (by decide) (by decide) (by decide) 0 1

/-- C2: after `Describe.run`, every rank holds the identical (left, right)
pair, and that pair is the elementwise minimum resp. maximum of the column
over the union of all ranks' local partitions (local fold, then all-gather
and a final elementwise reduction). -/
theorem describe_allranks_result
    (workers : List (List (List Row)))
    (h1 : workers ≠ [])
    (h2 : ∀ w ∈ workers, w ≠ [])
    (h3 : ∀ w ∈ workers, ∀ b ∈ w, b ≠ []) (i j : ℕ) :
    Describe.runAt workers i = Describe.runAt workers j ∧
    Describe.runAt workers i =
      pairUp (vecsMin (allRows workers)) (vecsMax (allRows workers)) ∧
    (Describe.runAt workers i).isSome = true := by
  have hne : allRows workers ≠ [] := by
    cases workers with
    | nil => exact absurd rfl h1
    | cons w ws =>
      have hwne : w.flatten ≠ [] :=
        flatten_ne_nil_of_parts (h2 w (List.mem_cons_self w ws))
          (h3 w (List.mem_cons_self w ws))
      have h5 : allRows (w :: ws) = w.flatten ++ allRows ws := by
        simp [allRows, List.flatten_cons]
      rw [h5]
      cases hx : w.flatten with
      | nil => exact absurd hx hwne
      | cons x xs => simp
  obtain ⟨l, hl⟩ := vecsMin_isSome hne
  obtain ⟨r, hr⟩ := vecsMax_isSome hne
  refine ⟨?_, runAt_eq workers h2 h3 i, ?_⟩
  · rw [runAt_eq workers h2 h3 i, runAt_eq workers h2 h3 j]
  · rw [runAt_eq workers h2 h3 i, hl, hr]
    rfl

theorem describe_allranks_result_witness :
    Describe.runAt [[[[0, 5], [2, 1]]], [[[3, -1]]]] 0 =
        Describe.runAt [[[[0, 5], [2, 1]]], [[[3, -1]]]] 1 ∧
    Describe.runAt [[[[0, 5], [2, 1]]], [[[3, -1]]]] 0 =
      pairUp (vecsMin (allRows [[[[0, 5], [2, 1]]], [[[3, -1]]]]))
        (vecsMax (allRows [[[[0, 5], [2, 1]]], [[[3, -1]]]])) ∧
    (Describe.runAt [[[[0, 5], [2, 1]]], [[[3, -1]]]] 0).isSome = true :=
  describe_allranks_result [[[[0, 5], [2, 1]]], [[[3, -1]]]]
    (by decide) (by decide) (by decide) 0 1

/-- C3 counterexample: a zero-row block does make the fold step of
`Describe.run` fail.  A worker whose stream yields the one-row block
`[[0,0,0]]` followed by a zero-row block produces no result (`none`, the
numpy `ValueError` on a zero-size reduction), while the same logical rows
without the empty block reduce fine. -/
theorem describe_zero_row_block_fails :
    Describe.runAt [[[[0, 0, 0]], []]] 0 = none ∧
    Describe.runAt [[[[0, 0, 0]]]] 0 = some ([0, 0, 0], [0, 0, 0]) := by
  exact ⟨rfl, rfl⟩

/-- C3 amended: `Describe.run` does not tolerate zero-row blocks — any
empty block (or an empty local stream) makes the fold raise; when every
rank's stream is nonempty and every block has at least one row, the fold
succeeds and produces a result. -/
theorem describe_fold_succeeds_without_empty_blocks
    (workers : List (List (List Row)))
    (h1 : workers ≠ [])
    (h2 : ∀ w ∈ workers, w ≠ [])
    (h3 : ∀ w ∈ workers, ∀ b ∈ w, b ≠ []) (rank : ℕ) :
    (Describe.runAt workers rank).isSome = true := by
  have hne : allRows workers ≠ [] := by
    cases workers with
    | nil => exact absurd rfl h1
    | cons w ws =>
      have hwne : w.flatten ≠ [] :=
        flatten_ne_nil_of_parts (h2 w (List.mem_cons_self w ws))
          (h3 w (List.mem_cons_self w ws))
      have h5 : allRows (w :: ws) = w.flatten ++ allRows ws := by
        simp [allRows, List.flatten_cons]
      rw [h5]
      cases hx : w.flatten with
      | nil => exact absurd hx hwne
      | cons x xs => simp
  obtain ⟨l, hl⟩ := vecsMin_isSome hne
  obtain ⟨r, hr⟩ := vecsMax_isSome hne
  rw [runAt_eq workers h2 h3 rank, hl, hr]
  rfl

theorem describe_fold_succeeds_without_empty_blocks_witness :
    (Describe.runAt [[[[7, 7]], [[1, 9]]]] 0).isSome = true :=
  describe_fold_succeeds_without_empty_blocks [[[[7, 7]], [[1, 9]]]]
    (by decide) (by decide) (by decide) 0

/-!
Part 2: the benchmarking sample generator (`src/benchmarks/conftest.py`).

`BenchmarkingSample` holds a preset name from the closed list
`['test', 'boss_like', 'desi_like']` and exposes `Nmesh`, `BoxSize`, `N` as
properties that fall back to the named preset unless an explicit override
attribute (`_Nmesh`, `_BoxSize`, `_N`) was set on the instance.

Embedding choices:
* the numeric attributes are rationals (`ℚ`), standing for the Python
  floats; the arithmetic the claims are about (products, divisions,
  cancellation of the oversampling factor) is exact in the source
  expressions, so ℚ carries it faithfully;
* `BoxSize` reads as `numpy.ones(3) * boxsize`, i.e. the scalar broadcast
  to a length-3 vector, modelled as `List.replicate 3`;
* `data()` and `randoms()` call the external `LogNormalCatalog` resp.
  `UniformCatalog` constructors and then attach `RA`, `DEC`, `Z`, `NZ`
  columns; the catalogs are external collaborators, so we record the
  arguments the methods pass to them and the `NZ` value they store.
-/

/-- The values of one named preset row of the class. -/
structure Preset where
  boxSizeVal : ℚ
  nmeshVal : ℕ
  nVal : ℚ
deriving Repr, DecidableEq

/-- `BenchmarkingSample.samples`: the closed list of valid sample names. -/
def samplesList : List String := ["test", "boss_like", "desi_like"]

/-- The three class-level preset dictionaries. -/
def presetOf (name : String) : Preset :=
  if name = "test" then ⟨100, 64, 1000⟩
  else if name = "boss_like" then ⟨2500, 1024, 1000000⟩
  else ⟨5000, 1024, 10000000⟩

/-- The instance state of a `BenchmarkingSample`: the bound preset name and
the optional explicit overrides (`_Nmesh`, `_BoxSize`, `_N` in the
source; absent attribute = `none`). -/
structure BenchmarkingSample where
  name : String
  overNmesh : Option ℕ := none
  overBoxSize : Option ℚ := none
  overN : Option ℚ := none
deriving Repr, DecidableEq

/-- `BenchmarkingSample.__init__`: asserts the name is one of the valid
sample names before binding it, with the message
`'valid names are: %s' % str(self.samples)`; the failure path builds no
catalog, it stops at the assertion. -/
def BenchmarkingSample.mk? (name : String) : Except String BenchmarkingSample :=
  if name ∈ samplesList then
    .ok { name := name }
  else
    .error "valid names are: ['test', 'boss_like', 'desi_like']"

/-- The `Nmesh` property: explicit override if present, else the preset. -/
def BenchmarkingSample.Nmesh (s : BenchmarkingSample) : ℕ :=
  s.overNmesh.getD (presetOf s.name).nmeshVal

/-- The `BoxSize` property: `numpy.ones(3) *` (override if present, else
the preset scalar). -/
def BenchmarkingSample.BoxSize (s : BenchmarkingSample) : List ℚ :=
  List.replicate 3 (s.overBoxSize.getD (presetOf s.name).boxSizeVal)

/-- The `N` property: explicit override if present, else the preset. -/
def BenchmarkingSample.N (s : BenchmarkingSample) : ℚ :=
  s.overN.getD (presetOf s.name).nVal

/-- The `Nmesh` setter (`self._Nmesh = val`). -/
def BenchmarkingSample.setNmesh (s : BenchmarkingSample) (v : ℕ) :
    BenchmarkingSample := { s with overNmesh := some v }

/-- The `BoxSize` setter (`self._BoxSize = val`). -/
def BenchmarkingSample.setBoxSize (s : BenchmarkingSample) (v : ℚ) :
    BenchmarkingSample := { s with overBoxSize := some v }

/-- The `N` setter (`self._N = val`). -/
def BenchmarkingSample.setN (s : BenchmarkingSample) (v : ℚ) :
    BenchmarkingSample := { s with overN := some v }

/-- The arguments `data()` passes to the external `LogNormalCatalog`
constructor, together with the `NZ` column it then stores on the result. -/
structure DataCatalogCall where
  nbar : ℚ
  BoxSize : List ℚ
  Nmesh : ℕ
  seed : Option ℕ
  NZ : ℚ
deriving Repr, DecidableEq

/-- `BenchmarkingSample.data(seed)`: computes
`nbar = self.N / self.BoxSize.prod()` from the current attribute values,
builds `LogNormalCatalog(Plin=Plin, nbar=nbar, BoxSize=self.BoxSize,
Nmesh=512, seed=seed)` — note the literal `512` — and stores
`cat['NZ'] = nbar`. -/
def BenchmarkingSample.data (s : BenchmarkingSample) (seed : Option ℕ) :
    DataCatalogCall :=
  let nbar := s.N / s.BoxSize.prod
  { nbar := nbar
    BoxSize := s.BoxSize
    Nmesh := 512
    seed := seed
    NZ := nbar }

/-- The arguments `randoms()` passes to the external `UniformCatalog`
constructor, together with the `NZ` column it then stores. -/
structure RandomCatalogCall where
  nbar : ℚ
  BoxSize : List ℚ
  seed : Option ℕ
  NZ : ℚ
deriving Repr, DecidableEq

/-- `BenchmarkingSample.randoms(alpha, seed)`: computes
`nbar = alpha * self.N / self.BoxSize.prod()`, builds
`UniformCatalog(nbar=nbar, BoxSize=self.BoxSize, seed=seed)` and stores
`cat['NZ'] = nbar / alpha`. -/
def BenchmarkingSample.randoms (s : BenchmarkingSample) (alpha : ℚ)
    (seed : Option ℕ) : RandomCatalogCall :=
  let nbar := alpha * s.N / s.BoxSize.prod
  { nbar := nbar
    BoxSize := s.BoxSize
    seed := seed
    NZ := nbar / alpha }

/-- The test-preset sample with no overrides, as a convenient instance. -/
def sTest : BenchmarkingSample := { name := "test" }

/-- C4 counterexample: for the test preset (no override), the sample's
`Nmesh` attribute reads 64, yet `data()` passes the literal `512` as the
mesh resolution of the `LogNormalCatalog` it builds. -/
theorem data_nmesh_counterexample :
    sTest.Nmesh = 64 ∧ (sTest.data none).Nmesh = 512 ∧ (64 : ℕ) ≠ 512 := by
  refine ⟨rfl, rfl, by decide⟩

/-- C4 amended: the clustered data catalog is always built with mesh
resolution 512 — the literal in the `LogNormalCatalog` call — whatever the
sample's `Nmesh` attribute resolves to, preset or explicit override. -/
theorem data_nmesh_hardcoded (s : BenchmarkingSample) (seed : Option ℕ)
    (m : ℕ) :
    (s.data seed).Nmesh = 512 ∧ ((s.setNmesh m).data seed).Nmesh = 512 :=
  ⟨rfl, rfl⟩

/-- C5: the randoms catalog is generated at number density
`alpha * (N / BoxSize.prod())`, while its stored `NZ` equals that density
divided by `alpha`, which is exactly the unscaled data density
`N / BoxSize.prod()`. -/
theorem randoms_nbar_and_nz (s : BenchmarkingSample) (alpha : ℚ)
    (seed : Option ℕ) (ha : 0 < alpha) :
    (s.randoms alpha seed).nbar = alpha * (s.N / s.BoxSize.prod) ∧
    (s.randoms alpha seed).NZ = s.N / s.BoxSize.prod := by
  constructor
  · show alpha * s.N / s.BoxSize.prod = alpha * (s.N / s.BoxSize.prod)
    rw [mul_div_assoc]
  · show alpha * s.N / s.BoxSize.prod / alpha = s.N / s.BoxSize.prod
    rw [div_div, mul_comm s.BoxSize.prod alpha]
    exact mul_div_mul_left _ _ (ne_of_gt ha)

theorem randoms_nbar_and_nz_witness :
    (sTest.randoms 2 none).nbar = 2 * (sTest.N / sTest.BoxSize.prod) ∧
    (sTest.randoms 2 none).NZ = sTest.N / sTest.BoxSize.prod :=
  randoms_nbar_and_nz sTest 2 none (by norm_num)

/-- C6 counterexample: the density is not strictly positive for every
sample — overriding `N` with 0 makes the next `data()` call use
`nbar = 0`. -/
theorem nbar_positivity_counterexample :
    (((sTest.setN 0).data none).nbar = 0) ∧
    ¬ (0 < ((sTest.setN 0).data none).nbar) := by
  have h : ((sTest.setN 0).data none).nbar = 0 := zero_div _
  exact ⟨h, by rw [h]; exact lt_irrefl 0⟩

/-- C6 amended: `nbar = N / BoxSize.prod()` is recomputed from the current
attribute values at every `data()` or `randoms()` call — after overriding
`N` or `BoxSize` the next catalog uses the overridden values, never a stale
cached density — and it is strictly positive whenever the current `N` and
`BoxSize` product are positive (as they are for every preset and positive
override). -/
theorem nbar_recomputed_and_positive (s : BenchmarkingSample)
    (seed : Option ℕ) (v b alpha : ℚ) (hN : 0 < s.N)
    (hB : 0 < s.BoxSize.prod) :
    0 < (s.data seed).nbar ∧
    (s.data seed).nbar = s.N / s.BoxSize.prod ∧
    ((s.setN v).data seed).nbar = v / s.BoxSize.prod ∧
    ((s.setBoxSize b).data seed).nbar = s.N / (List.replicate 3 b).prod ∧
    ((s.setN v).randoms alpha seed).nbar = alpha * v / s.BoxSize.prod := by
  refine ⟨?_, rfl, rfl, rfl, rfl⟩
  show 0 < s.N / s.BoxSize.prod
  exact div_pos hN hB

theorem nbar_recomputed_and_positive_witness :
    0 < (sTest.data none).nbar ∧
    (sTest.data none).nbar = sTest.N / sTest.BoxSize.prod ∧
    ((sTest.setN 7).data none).nbar = 7 / sTest.BoxSize.prod ∧
    ((sTest.setBoxSize 50).data none).nbar =
      sTest.N / (List.replicate 3 (50 : ℚ)).prod ∧
    ((sTest.setN 7).randoms 2 none).nbar = 2 * 7 / sTest.BoxSize.prod :=
  nbar_recomputed_and_positive sTest none 7 50 2
    (by norm_num [sTest, BenchmarkingSample.N, presetOf])
    (by norm_num [sTest, BenchmarkingSample.BoxSize, presetOf])

/-- The heap of live `BenchmarkingSample` instances: identity of the Python
object mapped to its state, so that mutating one instance can be stated
next to reading a different one. -/
abbrev SampleWorld : Type := ℕ → BenchmarkingSample

/-- `sample.BoxSize = v` on the instance with identity `i`. -/
def writeBoxSize (w : SampleWorld) (i : ℕ) (v : ℚ) : SampleWorld :=
  Function.update w i ((w i).setBoxSize v)

/-- Reading `sample.BoxSize` on the instance with identity `i`. -/
def readBoxSize (w : SampleWorld) (i : ℕ) : List ℚ := (w i).BoxSize

/-- C7: after `sample.BoxSize = v`, every later read of that instance's
`BoxSize` returns `v` broadcast across 3 axes, whatever preset name the
instance was built with; the override persists across later writes to
other attributes of the same instance; and the `BoxSize` of any other
instance is unchanged. -/
theorem boxsize_override_persists_framed (w : SampleWorld) (i j : ℕ)
    (v n : ℚ) (m : ℕ) (hij : j ≠ i) :
    readBoxSize (writeBoxSize w i v) i = List.replicate 3 v ∧
    ((((writeBoxSize w i v) i).setN n).setNmesh m).BoxSize =
      List.replicate 3 v ∧
    readBoxSize (writeBoxSize w i v) j = readBoxSize w j := by
  refine ⟨?_, ?_, ?_⟩
  · show ((Function.update w i ((w i).setBoxSize v)) i).BoxSize = _
    rw [Function.update_same]
    rfl
  · show ((((Function.update w i ((w i).setBoxSize v)) i).setN n).setNmesh
      m).BoxSize = _
    rw [Function.update_same]
    rfl
  · show ((Function.update w i ((w i).setBoxSize v)) j).BoxSize =
      (w j).BoxSize
    rw [Function.update_noteq hij]

theorem boxsize_override_persists_framed_witness :
    readBoxSize (writeBoxSize (fun _ => sTest) 0 42) 0 =
      List.replicate 3 (42 : ℚ) ∧
    ((((writeBoxSize (fun _ => sTest) 0 42) 0).setN 5).setNmesh 7).BoxSize =
      List.replicate 3 (42 : ℚ) ∧
    readBoxSize (writeBoxSize (fun _ => sTest) 0 42) 1 =
      readBoxSize (fun _ => sTest) 1 :=
  boxsize_override_persists_framed (fun _ => sTest) 0 1 42 5 7 (by decide)

/-- C8: constructing a `BenchmarkingSample` with a name outside the closed
list of samples fails at once with the assertion message listing the valid
names, before any catalog is generated; a name in the list succeeds and
binds the sample to that preset name. -/
theorem mk_validates_name (name : String) :
    (name ∉ samplesList →
      BenchmarkingSample.mk? name =
        .error "valid names are: ['test', 'boss_like', 'desi_like']") ∧
    (name ∈ samplesList →
      BenchmarkingSample.mk? name = .ok { name := name }) := by
  constructor
  · intro h
    simp [BenchmarkingSample.mk?, h]
  · intro h
    simp [BenchmarkingSample.mk?, h]

theorem mk_validates_name_witness :
    BenchmarkingSample.mk? "bogus" =
      .error "valid names are: ['test', 'boss_like', 'desi_like']" ∧
    BenchmarkingSample.mk? "test" = .ok { name := "test" } :=
  ⟨(mk_validates_name "bogus").1 (by decide),
    (mk_validates_name "test").2 (by decide)⟩

/-!
Part 3: `Describe.save` (`src/nbodykit/plugins/algorithms/ExampleAlgorithm.py`).

On ranks other than 0 the body is skipped entirely.  On rank 0 the method
formats `"DataSource %s Column %s : min = %s max = %s\n"` and writes it:
to `sys.stdout` when `output == '-'`, and otherwise through
`file(output, 'w')`.  `file` is a Python 2 builtin that does not exist in
Python 3: there the lookup raises `NameError` before anything is opened or
written.  The repository runs under Python 3 (its benchmark harness uses
`pytest` fixtures and the modern `nbodykit.lab`), so the embedding gives
the name lookup Python 3 semantics.
-/

/-- The error `Describe.save` can raise on rank 0: the unbound builtin
`file` under Python 3. -/
inductive PyError : Type
  | nameErrorFile
deriving Repr, DecidableEq

/-- One write performed by `save`: the destination (standard output or a
file path) and the formatted text. -/
structure WriteEvent : Type where
  dest : String
  text : String
deriving Repr, DecidableEq

/-- The formatted template
`"DataSource %s Column %s : min = %s max = %s\n"`. -/
def describeLine (datasource column leftStr rightStr : String) : String :=
  "DataSource " ++ datasource ++ " Column " ++ column ++ " : min = " ++
    leftStr ++ " max = " ++ rightStr ++ "\n"

/-- `Describe.save(output, data)` as observed on one rank: ranks other
than 0 fall through the `if self.comm.rank == 0` guard and return with no
output; rank 0 writes the formatted line to standard output when `output`
is `'-'`, and otherwise evaluates `file(output, 'w')`, which under
Python 3 raises `NameError` before any write happens. -/
def Describe.save (rank : ℕ) (output : String)
    (datasource column leftStr rightStr : String) :
    Except PyError (List WriteEvent) :=
  if rank = 0 then
    if output = "-" then
      .ok [⟨"<stdout>", describeLine datasource column leftStr rightStr⟩]
    else
      .error .nameErrorFile
  else
    .ok []

/-- C9 at the failing input: on rank 0 with the named destination
`"out.txt"`, `save` raises `NameError` (the Python 2 `file` builtin) and
writes nothing, instead of writing the result to the named destination as
the claim states; nonzero ranks do skip without error, and the `'-'`
stdout path does write exactly once. -/
theorem save_named_output_fails :
    Describe.save 0 "out.txt" "ds" "Position" "[0]" "[1]" =
      .error .nameErrorFile ∧
    Describe.save 1 "out.txt" "ds" "Position" "[0]" "[1]" = .ok [] ∧
    Describe.save 0 "-" "ds" "Position" "[0]" "[1]" =
      .ok [⟨"<stdout>", describeLine "ds" "Position" "[0]" "[1]"⟩] :=
  ⟨rfl, rfl, rfl⟩

/-- C10: on rank 0 the write succeeds only when `output` is `'-'`; every
other output value raises `NameError` through the Python 3 lookup of the
builtin `file`, with no partial output produced — and every rank with
nonzero rank number performs no output and returns without error. -/
theorem save_rank0_stdout_only (output : String)
    (datasource column leftStr rightStr : String) (rank : ℕ)
    (hout : output ≠ "-") (hrank : rank ≠ 0) :
    Describe.save 0 output datasource column leftStr rightStr =
      .error .nameErrorFile ∧
    Describe.save 0 "-" datasource column leftStr rightStr =
      .ok [⟨"<stdout>", describeLine datasource column leftStr rightStr⟩] ∧
    Describe.save rank output datasource column leftStr rightStr =
      .ok [] := by
  refine ⟨?_, rfl, ?_⟩
  · simp [Describe.save, hout]
  · simp [Describe.save, hrank]

theorem save_rank0_stdout_only_witness :
    Describe.save 0 "result.txt" "ds" "Position" "[0]" "[1]" =
      .error .nameErrorFile ∧
    Describe.save 0 "-" "ds" "Position" "[0]" "[1]" =
      .ok [⟨"<stdout>", describeLine "ds" "Position" "[0]" "[1]"⟩] ∧
    Describe.save 3 "result.txt" "ds" "Position" "[0]" "[1]" = .ok [] :=
  save_rank0_stdout_only "result.txt" "ds" "Position" "[0]" "[1]" 3
    (by decide) (by decide)
